import Mathlib

/-!
# protoc-gen-validator: the plugin harness and the pipeline it invokes

The only source file of the repository is `cmd/protoc-gen-validator/main.go`:

    func main() {
      protogen.Options{
        ParamFunc: flag.CommandLine.Set,
      }.Run(func(p *protogen.Plugin) error {
        return plugin.New(p).Generate()
      })
    }

`main` is embedded below together with the two library entry points it is
written against, `flag.FlagSet.Set` (Go standard library) and
`protogen.Options.Run` (google.golang.org/protobuf/compiler/protogen), which are
transcribed from their published sources.  Go strings are `String`s, Go `error`s
are values of `GoError`, `nil` errors are `none`, and every piece of mutable
state (the flag set, the `*protogen.Plugin`) is passed explicitly.

The package `plugin` (the generation pipeline behind `plugin.New(p).Generate()`)
is part of the repository but its source is not available.  For the harness it
is a parameter (`Pipeline`); the properties of the validators it emits are
stated over a model written from the specification (namespace `plugin`).
-/

namespace ProtocGenValidator

/-! ## Strings -/

/-- Go `strings.Split(s, sep)` for a one-byte separator, on the characters of `s`. -/
def splitChars (sep : Char) : List Char → List (List Char)
  | [] => [[]]
  | c :: cs =>
    if c = sep then [] :: splitChars sep cs
    else
      match splitChars sep cs with
      | [] => [[c]]
      | t :: ts => (c :: t) :: ts

/-- Go `strings.Split(s, ",")`. -/
def splitComma (s : String) : List String :=
  (splitChars ',' s.toList).map String.mk

/-- Go `strings.Index(s, sep)` followed by slicing at the hit: `none` when `sep`
does not occur, else the text before and the text after the first `sep`. -/
def cutChars (sep : Char) : List Char → Option (List Char × List Char)
  | [] => none
  | c :: cs =>
    if c = sep then some ([], cs)
    else
      match cutChars sep cs with
      | none => none
      | some (a, b) => some (c :: a, b)

/-- The `i := strings.Index(s, sep); i >= 0` idiom on strings. -/
def cut (sep : Char) (s : String) : Option (String × String) :=
  match cutChars sep s.toList with
  | none => none
  | some (a, b) => some (String.mk a, String.mk b)

/-- Go `strings.HasSuffix(s, suffix)`. -/
def hasSuffix (s suffix : String) : Bool :=
  suffix.toList.isSuffixOf s.toList

/-! ## Errors -/

/-- Go `error` values met by the harness, by the place that creates them. -/
inductive GoError
  /-- run: `unknown argument %q (this program should be run by protoc, not directly)`. -/
  | unknownArgument (arg : String)
  /-- Options.New: `unknown path type %q: want "import" or "source_relative"`. -/
  | unknownPathType (value : String)
  /-- Options.New: `bad value for parameter %q: want "true" or "false"`. -/
  | badValue (param : String)
  /-- FlagSet.Set: `no such flag -%v`. -/
  | noSuchFlag (name : String)
  /-- Any other error, by its message: a flag value that does not parse, a
  descriptor that does not resolve, an error returned by the pipeline, a
  generated file that does not format, a failed read or write. -/
  | other (msg : String)
  deriving DecidableEq, Repr

/-! ## Package flag -/

namespace flag

/-- A `flag.FlagSet`: the names of the defined flags (`formal`), the names of the
flags that have been set (`actual`), the current values of the flags, and the
`Value.Set` method of the flag registered under a name.  Which flags package
`plugin` defines on `flag.CommandLine` is not known, so the set is an input. -/
structure FlagSet (σ : Type) where
  formal : List String
  actual : List String
  values : σ
  valueSet : String → String → σ → Except GoError σ

/-- Method `func (f *FlagSet) Set(name, value string) error`: a name that is not
defined is an error `no such flag`; otherwise the value is handed to the
`Value.Set` of the flag, whose error is returned, and on success the flag is
recorded as set. -/
def FlagSet.Set {σ : Type} (name value : String) (f : FlagSet σ) :
    Except GoError (FlagSet σ) :=
  if name ∈ f.formal then
    match f.valueSet name value f.values with
    | .error err => .error err
    | .ok vs => .ok { f with values := vs, actual := name :: f.actual }
  else
    .error (.noSuchFlag name)

end flag

/-! ## Package protogen -/

namespace protogen

/-- One `FileDescriptorProto` of the request: its name and the rest of it. -/
structure FileDescriptorProto where
  name : String
  body : String
  deriving DecidableEq, Repr

/-- The `CodeGeneratorRequest`: the files to generate, the parameter string and
the descriptor set (the requested files and everything they depend on). -/
structure Request where
  fileToGenerate : List String
  parameter : String
  protoFile : List FileDescriptorProto
  deriving DecidableEq, Repr

/-- One file of a `CodeGeneratorResponse`. -/
structure ResponseFile where
  name : String
  content : String
  deriving DecidableEq, Repr

/-- The `CodeGeneratorResponse`: the error, the files and the supported features.
(Later versions of protogen also record edition bounds next to the features; an
error response has none of them either.) -/
structure Response where
  error : Option GoError
  file : List ResponseFile
  supportedFeatures : Option Nat
  deriving DecidableEq, Repr

inductive PathType
  | pathTypeImport
  | pathTypeSourceRelative
  deriving DecidableEq, Repr

/-- A `protogen.File`: a resolved descriptor and whether it was requested. -/
structure File where
  desc : FileDescriptorProto
  generate : Bool
  deriving DecidableEq, Repr

/-- A `protogen.GeneratedFile`: its name, the text written to it so far and
whether `Skip` was called on it. -/
structure GeneratedFile where
  filename : String
  buf : String
  skip : Bool
  deriving DecidableEq, Repr

/-- What the parameter loop of `Options.New` collects. -/
structure Params where
  module : String
  pathType : PathType
  annotateCode : Bool
  packageNames : List (String × String)
  importPaths : List (String × String)
  deriving DecidableEq, Repr

/-- The state of a `*protogen.Plugin`. -/
structure Plugin where
  request : Request
  files : List File
  params : Params
  genFiles : List GeneratedFile
  err : Option GoError
  supportedFeatures : Nat
  deriving DecidableEq, Repr

/-- The parts of protogen that the harness reaches and that are inputs here:
the descriptor resolution at the end of `Options.New` (which also marks the
requested files), `GeneratedFile.Content`, `GeneratedFile.metaFile`, and the
marshalling and writing of the response to standard output. -/
structure Lib where
  buildFiles : Request → Params → Except GoError (List File)
  content : GeneratedFile → Except GoError String
  metaFile : GeneratedFile → String → Except GoError String
  write : Response → Option GoError

/-- A `protogen.Options`, of which `main` sets `ParamFunc`.  The function may be
nil, and it acts on state of its own (`S`). -/
structure Options (S : Type) where
  ParamFunc : Option (String → String → S → Except GoError S)

def Params.init : Params :=
  { module := "", pathType := .pathTypeImport, annotateCode := false,
    packageNames := [], importPaths := [] }

/-- Function `splitImportPathAndPackageName`. -/
def splitImportPathAndPackageName (s : String) : String × String :=
  match cut ';' s with
  | some (a, b) => (a, b)
  | none => (s, "")

/-- Go `param[0] == 'M'` followed by `param[1:]`. -/
def stripM (param : String) : Option String :=
  match param.toList with
  | 'M' :: rest => some (String.mk rest)
  | _ => none

/-- The `M` case of the parameter loop. -/
def Params.addM (ps : Params) (file value : String) : Params :=
  let ip := splitImportPathAndPackageName value
  let ps1 := if ip.2 ≠ "" then { ps with packageNames := (file, ip.2) :: ps.packageNames } else ps
  if ip.1 ≠ "" then { ps1 with importPaths := (file, ip.1) :: ps1.importPaths } else ps1

/-- The head of the loop body: `param` and `value` of a token, cut at the first
`=`; a token without `=` has the empty value. -/
def keyValue (token : String) : String × String :=
  match cut '=' token with
  | some (k, v) => (k, v)
  | none => (token, "")

/-- One iteration of the parameter loop of `Options.New`, on one token of the
comma-separated parameter string: the cases `""`, `module`, `paths`,
`annotate_code`, then the keys that start with `M`, then `ParamFunc`.  (Later
versions of protogen handle a few more keys themselves; every other key still
goes to `ParamFunc`.) -/
def parseParam {S : Type} (opts : Options S) (token : String) (st : Params × S) :
    Except GoError (Params × S) :=
  let param := (keyValue token).1
  let value := (keyValue token).2
  if param = "" then .ok st
  else if param = "module" then .ok ({ st.1 with module := value }, st.2)
  else if param = "paths" then
    if value = "import" then .ok ({ st.1 with pathType := .pathTypeImport }, st.2)
    else if value = "source_relative" then
      .ok ({ st.1 with pathType := .pathTypeSourceRelative }, st.2)
    else .error (.unknownPathType value)
  else if param = "annotate_code" then
    if value = "true" ∨ value = "" then .ok ({ st.1 with annotateCode := true }, st.2)
    else if value = "false" then .ok st
    else .error (.badValue param)
  else
    match stripM param with
    | some file => .ok (st.1.addM file value, st.2)
    | none =>
      match opts.ParamFunc with
      | none => .ok st
      | some f =>
        match f param value st.2 with
        | .error err => .error err
        | .ok s => .ok (st.1, s)

/-- The parameter loop of `Options.New`: the tokens in order, stopping at the
first error. -/
def parseParams {S : Type} (opts : Options S) :
    List String → Params × S → Except GoError (Params × S)
  | [], st => .ok st
  | token :: rest, st =>
    match parseParam opts token st with
    | .error err => .error err
    | .ok st1 => parseParams opts rest st1

/-- Method `func (opts Options) New(req) (*Plugin, error)`: the parameter loop,
then the resolution of the descriptors. -/
def Options.New {S : Type} (lib : Lib) (opts : Options S) (req : Request) (s : S) :
    Except GoError (Plugin × S) :=
  match parseParams opts (splitComma req.parameter) (Params.init, s) with
  | .error err => .error err
  | .ok (ps, s1) =>
    match lib.buildFiles req ps with
    | .error err => .error err
    | .ok files =>
      .ok ({ request := req, files := files, params := ps, genFiles := [],
             err := none, supportedFeatures := 0 }, s1)

/-- Method `func (gen *Plugin) Error(err error)`: the first error is kept. -/
def Plugin.Error (gen : Plugin) (err : GoError) : Plugin :=
  match gen.err with
  | none => { gen with err := some err }
  | some _ => gen

/-- The loop of `Plugin.Response` over the generated files: `acc` is the list
of response files so far; an error abandons them. -/
def responseFiles (lib : Lib) (annotateCode : Bool) :
    List GeneratedFile → List ResponseFile → Except GoError (List ResponseFile)
  | [], acc => .ok acc
  | g :: rest, acc =>
    if g.skip then responseFiles lib annotateCode rest acc
    else
      match lib.content g with
      | .error err => .error err
      | .ok content =>
        let acc1 := acc ++ [{ name := g.filename, content := content }]
        if annotateCode ∧ hasSuffix g.filename ".go" then
          match lib.metaFile g content with
          | .error err => .error err
          | .ok meta =>
            responseFiles lib annotateCode rest
              (acc1 ++ [{ name := g.filename ++ ".meta", content := meta }])
        else responseFiles lib annotateCode rest acc1

/-- Method `func (gen *Plugin) Response() *pluginpb.CodeGeneratorResponse`. -/
def Plugin.Response (lib : Lib) (gen : Plugin) : Response :=
  match gen.err with
  | some err => { error := some err, file := [], supportedFeatures := none }
  | none =>
    match responseFiles lib gen.params.annotateCode gen.genFiles [] with
    | .error err => { error := some err, file := [], supportedFeatures := none }
    | .ok files =>
      { error := none, file := files,
        supportedFeatures :=
          if gen.supportedFeatures > 0 then some gen.supportedFeatures else none }

/-- How a run of the process ends, and what it did on the way. -/
structure RunResult where
  /-- The error returned by `run`: printed to standard error, exit status 1. -/
  err : Option GoError
  /-- The response written to standard output, if one was. -/
  response : Option Response
  /-- The plugins the callback was called on, in order. -/
  calls : List Plugin
  deriving DecidableEq, Repr

/-- Function `run(opts, f)`.  `args` is `os.Args`; `stdin` is the result of
reading standard input and unmarshalling it as a request; the callback `f` gets
the state `S` and the plugin and leaves the plugin changed and an error or
none. -/
def run {S : Type} (lib : Lib) (opts : Options S) (f : S → Plugin → Plugin × Option GoError)
    (args : List String) (stdin : Except GoError Request) (s : S) : RunResult :=
  match args with
  | _ :: arg :: _ => { err := some (.unknownArgument arg), response := none, calls := [] }
  | _ =>
    match stdin with
    | .error err => { err := some err, response := none, calls := [] }
    | .ok req =>
      match Options.New lib opts req s with
      | .error err => { err := some err, response := none, calls := [] }
      | .ok (gen, s1) =>
        let r := f s1 gen
        let gen1 :=
          match r.2 with
          | some err => r.1.Error err
          | none => r.1
        let resp := gen1.Response lib
        match lib.write resp with
        | some err => { err := some err, response := none, calls := [gen] }
        | none => { err := none, response := some resp, calls := [gen] }

/-- Method `func (opts Options) Run(f)`: `run`, whose error, if any, goes to
standard error before `os.Exit(1)`. -/
def Options.Run {S : Type} (lib : Lib) (opts : Options S)
    (f : S → Plugin → Plugin × Option GoError)
    (args : List String) (stdin : Except GoError Request) (s : S) : RunResult :=
  run lib opts f args stdin s

end protogen

/-! ## Package main -/

open protogen

/-- The pipeline of package `plugin` as the harness sees it: `New` wraps the
plugin in a generator object, `Generate` runs on that object, may read the
flags, acts on the plugin and returns an error or none. -/
structure Pipeline (σ G : Type) where
  New : Plugin → G
  Generate : G → flag.FlagSet σ → Plugin → Plugin × Option GoError

/-- The function literal of `main`: `return plugin.New(p).Generate()`. -/
def callback {σ G : Type} (pl : Pipeline σ G) (flags : flag.FlagSet σ) (p : Plugin) :
    Plugin × Option GoError :=
  pl.Generate (pl.New p) flags p

/-- The options literal of `main`: `ParamFunc: flag.CommandLine.Set`. -/
def mainOptions (σ : Type) : Options (flag.FlagSet σ) :=
  { ParamFunc := some flag.FlagSet.Set }

/-- Function `main`, started with arguments `args`, standard input `stdin` and
`flag.CommandLine` in state `flags`. -/
def main {σ G : Type} (lib : Lib) (pl : Pipeline σ G) (args : List String)
    (stdin : Except GoError Request) (flags : flag.FlagSet σ) : RunResult :=
  Options.Run lib (mainOptions σ) (callback pl) args stdin flags

/-! ### Concrete collaborators, for evaluating `main` -/

/-- A library instance in which every descriptor resolves (a file is marked when
it is requested), every generated file formats to its own text, and writing the
response succeeds. -/
def demoLib : Lib :=
  { buildFiles := fun req _ =>
      .ok (req.protoFile.map fun d => { desc := d, generate := decide (d.name ∈ req.fileToGenerate) }),
    content := fun g => .ok g.buf,
    metaFile := fun _ _ => .ok "",
    write := fun _ => none }

/-- A flag set with one defined flag, `lang`, whose value is a string. -/
def demoFlags : flag.FlagSet String :=
  { formal := ["lang"], actual := [], values := "",
    valueSet := fun _ value _ => .ok value }

/-- A pipeline that writes one file for each requested file and succeeds. -/
def demoPipeline : Pipeline String Plugin :=
  { New := fun p => p,
    Generate := fun g _ p =>
      ({ p with genFiles := p.genFiles ++ g.files.filterMap fun f =>
            if f.generate then
              some { filename := f.desc.name ++ ".validator.pb.go", buf := "package x", skip := false }
            else none },
       none) }

/-- A pipeline that writes one file for each requested file and then fails. -/
def failingPipeline : Pipeline String Plugin :=
  { New := fun p => p,
    Generate := fun g flags p =>
      ((demoPipeline.Generate g flags p).1, some (.other "invalid constraint")) }

/-- A pipeline that records the error `first` on the plugin with `Plugin.Error`
and then returns the error `second`. -/
def recordingPipeline : Pipeline String Plugin :=
  { New := fun p => p,
    Generate := fun _ _ p => (p.Error (.other "first"), some (.other "second")) }

/-- A pipeline that leaves a mark of each of its invocations: every call of
`Generate` adds one generated file named `invocation` to the plugin, whatever
the request, and succeeds. -/
def markerPipeline : Pipeline String Plugin :=
  { New := fun p => p,
    Generate := fun _ _ p =>
      ({ p with genFiles := p.genFiles ++ [{ filename := "invocation", buf := "", skip := false }] },
       none) }

/-- The number of invocations of `markerPipeline` that a response shows: its
files named `invocation`. -/
def invocationMarks (resp : Response) : Nat :=
  (resp.file.filter fun f => f.name = "invocation").length

/-- A request for two files, `a.proto` and `b.proto`, with a given parameter
string. -/
def demoRequest (parameter : String) : Request :=
  { fileToGenerate := ["a.proto", "b.proto"], parameter := parameter,
    protoFile := [{ name := "a.proto", body := "" }, { name := "b.proto", body := "" }] }

/-- The plugin that `Options.New` builds for `demoRequest` with `demoLib`, when
the parameters leave the defaults in place. -/
def demoPlugin (parameter : String) : Plugin :=
  { request := demoRequest parameter,
    files := [{ desc := { name := "a.proto", body := "" }, generate := true },
              { desc := { name := "b.proto", body := "" }, generate := true }],
    params := Params.init, genFiles := [], err := none, supportedFeatures := 0 }

/-- The key of a token is handled by `Options.New` itself and never reaches
`ParamFunc`: the empty key, `module`, `paths`, `annotate_code` and every key that
starts with `M`. -/
def handledByProtogen (param : String) : Bool :=
  param = "" || param = "module" || param = "paths" || param = "annotate_code"
    || (stripM param).isSome

/-! ## Package plugin: the pipeline, from the specification -/

namespace plugin

/-- Modelled from the spec: the source of package `plugin` is missing.  A
Constraint (section 3) is a named predicate configuration on one field; of the
kinds the specification lists, the numeric range (with its exclusive mark), the
required check and the nested-message-must-validate check. -/
inductive Constraint
  | numericRange (min max : Int) (exclusive : Bool)
  | required
  | nestedValidate
  deriving DecidableEq, Repr

/-- Modelled from the spec: the declared type of a FieldDecl (section 3), the
type declarations of package `plugin` being missing: a numeric scalar, a string
scalar, or a reference to a message type, by its key in the arena of message
types (section 9). -/
inductive FieldType
  | numeric
  | text
  | message (ref : Nat)
  deriving DecidableEq, Repr

/-- Modelled from the spec: a FieldDecl (section 3), missing with package
`plugin`: name, declared type and the raw constraints attached to it. -/
structure FieldDecl where
  name : String
  type : FieldType
  constraints : List Constraint
  deriving DecidableEq, Repr

/-- Modelled from the spec: a MessageType (section 3), missing with package
`plugin`: a name and the fields in declaration order. -/
structure MessageType where
  name : String
  fields : List FieldDecl
  deriving DecidableEq, Repr

/-- Modelled from the spec: the resolved descriptor graph, missing with package
`plugin`, as section 9 has it: an arena of message types indexed by a stable
key, here the position; a reference is a key, so the graph may be cyclic. -/
abbrev Schema := List MessageType

/-- Modelled from the spec: a ValidationRule (section 3), missing with package
`plugin`: the compiled, typed form of one Constraint.  The nested rule refers to
the validator of the referenced message type by its key. -/
inductive ValidationRule
  | range (min max : Int) (exclusive : Bool)
  | required
  | nested (ref : Nat)
  deriving DecidableEq, Repr

/-- Modelled from the spec: a GenerationDiagnostic (section 3), missing with
package `plugin`: the message, the field and the constraint that is
incompatible with the type of the field. -/
structure GenerationDiagnostic where
  message : String
  field : String
  constraint : Constraint
  deriving DecidableEq, Repr

/-- Modelled from the spec: the two error classes of section 7, missing with
package `plugin`: a reference to a message type that is absent from the
descriptor set, or the diagnostics collected over the whole run. -/
inductive GenerationError
  | resolution (message field : String)
  | diagnostics (found : List GenerationDiagnostic)
  deriving DecidableEq, Repr

/-- Modelled from the spec: the generated validator of one message type
(section 4.4), the emitter of package `plugin` being missing: the key and name
of the message type and, field by field in declaration order, the name of the
field and its compiled rules. -/
structure Validator where
  message : Nat
  name : String
  checks : List (String × List ValidationRule)
  deriving DecidableEq, Repr

/-- Modelled from the spec: the Constraint Extractor of section 4.2, missing
with package `plugin`: a numeric range is only valid on a numeric field, a
nested-message-must-validate constraint only on a message field. -/
def compatible : FieldType → Constraint → Bool
  | .numeric, .numericRange _ _ _ => true
  | _, .numericRange _ _ _ => false
  | _, .required => true
  | .message _, .nestedValidate => true
  | _, .nestedValidate => false

/-- Modelled from the spec: the Rule Compiler of section 4.3 on one Constraint,
missing with package `plugin`: one ValidationRule for a compatible constraint. -/
def compileConstraint : FieldType → Constraint → Option ValidationRule
  | .numeric, .numericRange lo hi exclusive => some (.range lo hi exclusive)
  | _, .numericRange _ _ _ => none
  | _, .required => some .required
  | .message ref, .nestedValidate => some (.nested ref)
  | _, .nestedValidate => none

/-- Modelled from the spec: whether a rule delegates to another validator
(section 4.3), missing with package `plugin`. -/
def ValidationRule.isNested : ValidationRule → Bool
  | .nested _ => true
  | _ => false

/-- Modelled from the spec: the Rule Compiler of section 4.3 on one field,
missing with package `plugin`: the rules of the compatible constraints, the
cheap scalar checks before the nested-message delegation. -/
def compileField (f : FieldDecl) : List ValidationRule :=
  let rules := f.constraints.filterMap (compileConstraint f.type)
  rules.filter (fun r => !r.isNested) ++ rules.filter (fun r => r.isNested)

/-- Modelled from the spec: the Code Emitter of section 4.4 on one message type,
missing with package `plugin`. -/
def emitValidator (key : Nat) (m : MessageType) : Validator :=
  { message := key, name := m.name, checks := m.fields.map fun f => (f.name, compileField f) }

/-- Modelled from the spec: the Code Emitter of section 4.4 over the arena,
missing with package `plugin`: one validator per message type, in declaration
order, starting at key `key`.  References are not followed: a nested rule names
the validator it delegates to by key (section 9). -/
def emitFrom (key : Nat) : List MessageType → List Validator
  | [] => []
  | m :: ms => emitValidator key m :: emitFrom (key + 1) ms

/-- Modelled from the spec: the Code Emitter of section 4.4, missing with
package `plugin`. -/
def emit (s : Schema) : List Validator :=
  emitFrom 0 s

/-- Modelled from the spec: the ResolutionError of section 4.1, missing with
package `plugin`: the first field, if any, that refers to a message type absent
from the arena. -/
def unresolved (s : Schema) : Option (String × String) :=
  (s.flatMap fun m => m.fields.filterMap fun f =>
    match f.type with
    | .message ref => if ref < s.length then none else some (m.name, f.name)
    | _ => none).head?

/-- Modelled from the spec: the diagnostics of section 4.2, missing with package
`plugin`: one for every incompatible constraint, aggregated over all fields of
all messages. -/
def diagnose (s : Schema) : List GenerationDiagnostic :=
  s.flatMap fun m => m.fields.flatMap fun f =>
    (f.constraints.filter fun c => !compatible f.type c).map fun c =>
      { message := m.name, field := f.name, constraint := c }

/-- Modelled from the spec: the pipeline of sections 4.1 to 4.4 behind
`plugin.New(p).Generate()`, whose source is missing: a resolution error aborts, a
diagnostic fails the run with no artifact (section 7), otherwise the validators
are emitted. -/
def Generate (s : Schema) : Except GenerationError (List Validator) :=
  match unresolved s with
  | some (m, f) => .error (.resolution m f)
  | none =>
    match diagnose s with
    | [] => .ok (emit s)
    | d :: ds => .error (.diagnostics (d :: ds))

/-- Modelled from the spec: a field value of a message instance, the generated
code being missing: a number, a string, an unset message field, or a nested
message instance given by the values of its fields in declaration order. -/
inductive Value
  | num (v : Int)
  | text (s : String)
  | unset
  | msg (fields : List Value)

mutual
/-- Modelled from the spec: the depth of a field value (section 8, actual
instance depth), the generated code being missing: the number of message
instances nested inside one another in it. -/
def Value.depth : Value → Nat
  | .num _ => 0
  | .text _ => 0
  | .unset => 0
  | .msg fields => depthList fields + 1
/-- Modelled from the spec: the depth of a message instance given by its field
values (section 8), the generated code being missing: the greatest depth of a
field value. -/
def depthList : List Value → Nat
  | [] => 0
  | v :: vs => max v.depth (depthList vs)
end

/-- Modelled from the spec: one violated field of a validation result (section
4.4), the generated code being missing: the path of field names from the
validated message down to the field, and the reason. -/
structure Violation where
  path : List String
  reason : String
  deriving DecidableEq, Repr

/-- Modelled from the spec: the numeric range rule of section 4.3, the rule
compiler being missing: inclusive lower and upper bounds unless marked
exclusive, then the open interval. -/
def inRange (lo hi : Int) (exclusive : Bool) (v : Int) : Bool :=
  if exclusive then decide (lo < v) && decide (v < hi)
  else decide (lo ≤ v) && decide (v ≤ hi)

/-- Modelled from the spec: the zero, empty or unset value of section 4.3
(required), the rule compiler being missing. -/
def Value.isDefault : Value → Bool
  | .num v => decide (v = 0)
  | .text s => decide (s = "")
  | .unset => true
  | .msg _ => false

/-- Modelled from the spec: one ValidationRule on one field value (section
4.3), the generated code being missing.  `nested` is the call of another
generated validator, by key, which may not return (`none`).  The result lists
the violations the rule finds, the empty list when it holds. -/
def checkRule (nested : Nat → List Value → Option (List Violation)) :
    ValidationRule → Value → Option (List Violation)
  | .range lo hi exclusive, .num v =>
    some (if inRange lo hi exclusive v then [] else [{ path := [], reason := "out of range" }])
  | .range _ _ _, _ => some []
  | .required, v =>
    some (if v.isDefault then [{ path := [], reason := "required" }] else [])
  | .nested ref, .msg fields => nested ref fields
  | .nested _, _ => some []

/-- Modelled from the spec: the rule list of one field (section 4.3), the
generated code being missing: the rules combine with logical AND, in the order
the compiler fixed, and evaluation stops at the first rule that is violated. -/
def checkRules (nested : Nat → List Value → Option (List Violation)) :
    List ValidationRule → Value → Option (List Violation)
  | [], _ => some []
  | r :: rs, v =>
    match checkRule nested r v with
    | none => none
    | some [] => checkRules nested rs v
    | some (x :: xs) => some (x :: xs)

/-- Modelled from the spec: the body of a generated validator (sections 4.3 and
4.4), the generated code being missing: every field is evaluated, in declaration
order, and every violation is collected into the one result, under the name of
its field. -/
def checkFields (nested : Nat → List Value → Option (List Violation)) :
    List (String × List ValidationRule) → List Value → Option (List Violation)
  | c :: cs, v :: vs =>
    match checkRules nested c.2 v, checkFields nested cs vs with
    | some here, some rest =>
      some (here.map (fun x => { x with path := c.1 :: x.path }) ++ rest)
    | _, _ => none
  | _, _ => some []

/-- Modelled from the spec: a call of the generated validator of the message
type with key `key` on an instance (section 4.4), the generated code being
missing.  The validators call one another by key; `fuel` bounds the depth of
these calls, and `none` is a call that did not return within it. -/
def validate (validators : List Validator) : Nat → Nat → List Value → Option (List Violation)
  | 0, _, _ => none
  | fuel + 1, key, fields =>
    match validators[key]? with
    | none => some []
    | some v => checkFields (validate validators fuel) v.checks fields

/-- Modelled from the spec: a message type that refers to itself (section 8,
cycle termination): a node of a linked list with a value in the range from 1 to
10, inclusive, a required label, and a validated reference to the next node,
which is the message type with key 0, the node itself. -/
def nodeMessage : MessageType :=
  { name := "Node",
    fields := [{ name := "value", type := .numeric, constraints := [.numericRange 1 10 false] },
               { name := "label", type := .text, constraints := [.required] },
               { name := "next", type := .message 0, constraints := [.nestedValidate] }] }

/-- Modelled from the spec: a schema whose message reference graph has a cycle
(section 8): its one message type, at key 0, is `nodeMessage`. -/
def cyclicSchema : Schema :=
  [nodeMessage]

/-- Modelled from the spec: a message type with one numeric field `f` under a
range constraint (section 8, constraint boundary correctness). -/
def rangeSchema (lo hi : Int) (exclusive : Bool) : Schema :=
  [{ name := "M",
     fields := [{ name := "f", type := .numeric,
                  constraints := [.numericRange lo hi exclusive] }] }]

end plugin

/-! ## The harness: lemmas -/

theorem parseParams_append {S : Type} (opts : Options S) (pre post : List String)
    (st st1 : Params × S) (h : parseParams opts pre st = .ok st1) :
    parseParams opts (pre ++ post) st = parseParams opts post st1 := by
  induction pre generalizing st with
  | nil =>
    simp only [parseParams, Except.ok.injEq] at h
    simp [h]
  | cons t ts ih =>
    simp only [parseParams, List.cons_append] at h ⊢
    cases hp : parseParam opts t st with
    | error e => simp [hp] at h
    | ok st2 =>
      simp only [hp] at h ⊢
      exact ih st2 h

theorem parseParams_stops {S : Type} (opts : Options S) (pre post : List String)
    (token : String) (st st1 : Params × S) (e : GoError)
    (hpre : parseParams opts pre st = .ok st1)
    (htok : parseParam opts token st1 = .error e) :
    parseParams opts (pre ++ token :: post) st = .error e := by
  rw [parseParams_append opts pre (token :: post) st st1 hpre]
  simp [parseParams, htok]

/-- A token whose key protogen does not handle itself is handed to `ParamFunc`,
and an error of `ParamFunc` is the error of the iteration. -/
theorem parseParam_handler_error {S : Type} (f : String → String → S → Except GoError S)
    (token : String) (st : Params × S) (e : GoError)
    (hb : handledByProtogen (keyValue token).1 = false)
    (hf : f (keyValue token).1 (keyValue token).2 st.2 = .error e) :
    parseParam { ParamFunc := some f } token st = .error e := by
  simp only [handledByProtogen, Bool.or_eq_false_iff, decide_eq_false_iff_not] at hb
  obtain ⟨⟨⟨⟨h1, h2⟩, h3⟩, h4⟩, h5⟩ := hb
  cases h6 : stripM (keyValue token).1 with
  | some file => simp [h6] at h5
  | none => simp [parseParam, h1, h2, h3, h4, h6, hf]

/-- `FlagSet.Set` leaves the set of defined flags as it is. -/
theorem Set_formal {σ : Type} (name value : String) (f f1 : flag.FlagSet σ)
    (h : flag.FlagSet.Set name value f = .ok f1) : f1.formal = f.formal := by
  unfold flag.FlagSet.Set at h
  split at h
  · split at h
    · simp at h
    · simp only [Except.ok.injEq] at h
      rw [← h]
  · simp at h

theorem Set_undefined {σ : Type} (name value : String) (f : flag.FlagSet σ)
    (h : name ∉ f.formal) : flag.FlagSet.Set name value f = .error (.noSuchFlag name) := by
  simp [flag.FlagSet.Set, h]

/-- One iteration of the parameter loop of `main` leaves the set of defined
flags as it is. -/
theorem parseParam_formal {σ : Type} (token : String)
    (st st1 : Params × flag.FlagSet σ)
    (h : parseParam (mainOptions σ) token st = .ok st1) : st1.2.formal = st.2.formal := by
  unfold parseParam mainOptions at h
  simp only at h
  split at h
  · simp only [Except.ok.injEq] at h; rw [← h]
  split at h
  · simp only [Except.ok.injEq] at h; rw [← h]
  split at h
  · split at h
    · simp only [Except.ok.injEq] at h; rw [← h]
    split at h
    · simp only [Except.ok.injEq] at h; rw [← h]
    · simp at h
  split at h
  · split at h
    · simp only [Except.ok.injEq] at h; rw [← h]
    split at h
    · simp only [Except.ok.injEq] at h; rw [← h]
    · simp at h
  split at h
  · simp only [Except.ok.injEq] at h; rw [← h]
  · split at h
    · simp at h
    · rename_i s heq
      simp only [Except.ok.injEq] at h
      rw [← h]
      exact Set_formal _ _ _ _ heq

/-- A token with a key that neither protogen nor the flag set knows makes the
parameter loop of `main` fail, wherever it stands. -/
theorem parseParams_unknown {σ : Type} (token : String) (tokens : List String)
    (st : Params × flag.FlagSet σ) (hmem : token ∈ tokens)
    (hkey : handledByProtogen (keyValue token).1 = false)
    (hundef : (keyValue token).1 ∉ st.2.formal) :
    ∃ e, parseParams (mainOptions σ) tokens st = .error e := by
  induction tokens generalizing st with
  | nil => simp at hmem
  | cons t ts ih =>
    simp only [parseParams]
    cases hp : parseParam (mainOptions σ) t st with
    | error e => exact ⟨e, rfl⟩
    | ok st1 =>
      simp only
      rcases List.mem_cons.mp hmem with heq | hts
      · subst heq
        have herr := parseParam_handler_error flag.FlagSet.Set token st _ hkey
          (Set_undefined _ _ st.2 hundef)
        simp only [mainOptions] at hp
        rw [herr] at hp
        simp at hp
      · have hformal := parseParam_formal t st st1 hp
        exact ih st1 hts (by rw [hformal]; exact hundef)

/-- With at most the program name in `os.Args`, `run` goes on to read the
request. -/
theorem run_of_args {S : Type} (lib : Lib) (opts : Options S)
    (f : S → Plugin → Plugin × Option GoError) (args : List String) (req : Request) (s : S)
    (hargs : args.length ≤ 1) :
    run lib opts f args (.ok req) s =
      match Options.New lib opts req s with
      | .error err => { err := some err, response := none, calls := [] }
      | .ok (gen, s1) =>
        match lib.write ((match (f s1 gen).2 with
            | some err => (f s1 gen).1.Error err
            | none => (f s1 gen).1).Response lib) with
        | some err => { err := some err, response := none, calls := [gen] }
        | none =>
          { err := none,
            response := some ((match (f s1 gen).2 with
              | some err => (f s1 gen).1.Error err
              | none => (f s1 gen).1).Response lib),
            calls := [gen] } := by
  match args, hargs with
  | [], _ => simp only [run]
  | [_], _ => simp only [run]
  | _ :: _ :: _, h => simp at h

/-- A run in which `Options.New` fails ends with that error, before the
callback. -/
theorem run_of_New_error {S : Type} (lib : Lib) (opts : Options S)
    (f : S → Plugin → Plugin × Option GoError) (args : List String) (req : Request) (s : S)
    (e : GoError) (hnew : Options.New lib opts req s = .error e) :
    ∃ e1, run lib opts f args (.ok req) s = { err := some e1, response := none, calls := [] } := by
  match args with
  | [] => exact ⟨e, by simp [run, hnew]⟩
  | [_] => exact ⟨e, by simp [run, hnew]⟩
  | _ :: arg :: _ => exact ⟨.unknownArgument arg, by simp [run]⟩

/-- A response with an error has no file and no feature set. -/
theorem Response_error (lib : Lib) (gen : Plugin)
    (h : (gen.Response lib).error ≠ none) :
    (gen.Response lib).file = [] ∧ (gen.Response lib).supportedFeatures = none := by
  unfold Plugin.Response at h ⊢
  cases h1 : gen.err with
  | some e => simp
  | none =>
    simp only [h1] at h ⊢
    cases h2 : responseFiles lib gen.params.annotateCode gen.genFiles [] with
    | error e => simp
    | ok files => simp [h2] at h

/-- The response after `Plugin.Error`: the error recorded first, and nothing
else. -/
theorem Response_after_Error (lib : Lib) (gen : Plugin) (e : GoError) :
    (gen.Error e).Response lib =
      { error := some (gen.err.getD e), file := [], supportedFeatures := none } := by
  unfold Plugin.Error
  cases h : gen.err with
  | none => simp [Plugin.Response]
  | some e0 => simp [Plugin.Response, h]

/-- What a written response is: the response of some plugin state. -/
theorem run_response {S : Type} (lib : Lib) (opts : Options S)
    (f : S → Plugin → Plugin × Option GoError) (args : List String)
    (stdin : Except GoError Request) (s : S) (resp : Response)
    (h : (run lib opts f args stdin s).response = some resp) :
    ∃ gen : Plugin, resp = gen.Response lib := by
  unfold run at h
  split at h
  · simp at h
  · split at h
    · simp at h
    · split at h
      · simp at h
      · simp only at h
        split at h
        · simp at h
        · simp only [Option.some.injEq] at h
          exact ⟨_, h.symm⟩

/-! ## The harness: claims -/

/-- C1, as the code has it: the result of the callback of `main` is the result
of `plugin.New(p).Generate()`, for every plugin `p` and flag state.  In a run
that reaches the callback, when `Generate` returns an error `e` the harness
records it with `Plugin.Error` and the host gets a response with an error and no
file; the error of the response is the one recorded first on the plugin: `e`
when the pipeline has recorded none itself, else the one the pipeline recorded.
When `Generate` returns no error, neither does the callback, and the response is
the one of the plugin as `Generate` left it. -/
theorem generate_error_reaches_host {σ G : Type} (lib : Lib) (pl : Pipeline σ G)
    (args : List String) (req : Request) (flags flags1 : flag.FlagSet σ) (gen : Plugin)
    (hargs : args.length ≤ 1)
    (hnew : Options.New lib (mainOptions σ) req flags = .ok (gen, flags1))
    (hwrite : ∀ resp, lib.write resp = none) :
    (∀ (p : Plugin) (fl : flag.FlagSet σ), callback pl fl p = pl.Generate (pl.New p) fl p) ∧
    (∀ e : GoError, (pl.Generate (pl.New gen) flags1 gen).2 = some e →
      ∃ resp, (main lib pl args (.ok req) flags).response = some resp ∧
        (main lib pl args (.ok req) flags).err = none ∧
        resp.file = [] ∧
        resp.error = some ((pl.Generate (pl.New gen) flags1 gen).1.err.getD e) ∧
        ((pl.Generate (pl.New gen) flags1 gen).1.err = none → resp.error = some e)) ∧
    ((pl.Generate (pl.New gen) flags1 gen).2 = none →
      (callback pl flags1 gen).2 = none ∧
      (main lib pl args (.ok req) flags).response
        = some ((pl.Generate (pl.New gen) flags1 gen).1.Response lib)) := by
  refine ⟨fun _ _ => rfl, ?_, ?_⟩
  · intro e he
    refine ⟨{ error := some ((pl.Generate (pl.New gen) flags1 gen).1.err.getD e), file := [],
              supportedFeatures := none }, ?_, ?_, rfl, rfl, ?_⟩
    · unfold main Options.Run
      rw [run_of_args lib _ _ args req flags hargs, hnew]
      simp only [callback, he, hwrite, Response_after_Error]
    · unfold main Options.Run
      rw [run_of_args lib _ _ args req flags hargs, hnew]
      simp only [hwrite]
    · intro hnone
      simp [hnone]
  · intro hnone
    refine ⟨hnone, ?_⟩
    unfold main Options.Run
    rw [run_of_args lib _ _ args req flags hargs, hnew]
    simp only [callback, hnone, hwrite]

/-- Witness for C1: a pipeline that writes two files and then fails with
`invalid constraint`, having recorded no error itself; the host gets that error
and no file. -/
theorem generate_error_reaches_host_witness :
    ∃ resp, (main demoLib failingPipeline ["protoc-gen-validator"]
          (.ok (demoRequest "lang=go")) demoFlags).response = some resp ∧
        (main demoLib failingPipeline ["protoc-gen-validator"]
          (.ok (demoRequest "lang=go")) demoFlags).err = none ∧
        resp.file = [] ∧
        resp.error = some (Option.getD
          (failingPipeline.Generate (failingPipeline.New (demoPlugin "lang=go"))
            { demoFlags with values := "go", actual := ["lang"] } (demoPlugin "lang=go")).1.err
          (.other "invalid constraint")) ∧
        ((failingPipeline.Generate (failingPipeline.New (demoPlugin "lang=go"))
            { demoFlags with values := "go", actual := ["lang"] } (demoPlugin "lang=go")).1.err = none →
          resp.error = some (.other "invalid constraint")) :=
  (generate_error_reaches_host demoLib failingPipeline ["protoc-gen-validator"]
    (demoRequest "lang=go") demoFlags
    { demoFlags with values := "go", actual := ["lang"] }
    (demoPlugin "lang=go")
    (by decide) (by rfl) (fun _ => rfl)).2.1 (.other "invalid constraint") (by rfl)

/-- C1 as stated fails: `recordingPipeline` records the error `first` on the
plugin and its `Generate` returns the error `second`; the callback returns
`second`, and the response that `main` writes for the host carries `first`, which
`Plugin.Error` keeps, not the error that `Generate` returned. -/
theorem generate_error_not_the_one_reported :
    (recordingPipeline.Generate (recordingPipeline.New (demoPlugin "")) demoFlags
        (demoPlugin "")).2 = some (.other "second") ∧
    (callback recordingPipeline demoFlags (demoPlugin "")).2 = some (.other "second") ∧
    (main demoLib recordingPipeline ["protoc-gen-validator"] (.ok (demoRequest "")) demoFlags).response
      = some { error := some (.other "first"), file := [], supportedFeatures := none } ∧
    (main demoLib recordingPipeline ["protoc-gen-validator"] (.ok (demoRequest "")) demoFlags).response
      ≠ some { error := some (.other "second"), file := [], supportedFeatures := none } := by
  refine ⟨by decide, by decide, by decide, by decide⟩

/-- C2: a response that `main` writes for the host carries an error or files,
never both: when its error is set, its list of files is empty (and so is its
feature set), whatever files the pipeline had produced on the plugin. -/
theorem response_error_excludes_files {σ G : Type} (lib : Lib) (pl : Pipeline σ G)
    (args : List String) (stdin : Except GoError Request) (flags : flag.FlagSet σ)
    (resp : Response)
    (hresp : (main lib pl args stdin flags).response = some resp)
    (herr : resp.error ≠ none) :
    resp.file = [] ∧ resp.supportedFeatures = none := by
  obtain ⟨gen, hgen⟩ := run_response lib _ _ args stdin flags resp hresp
  subst hgen
  exact Response_error lib gen herr

/-- Witness for C2: the failing pipeline had written two files on the plugin,
and the response carries its error and none of them. -/
theorem response_error_excludes_files_witness :
    (failingPipeline.Generate (failingPipeline.New (demoPlugin "")) demoFlags
        (demoPlugin "")).1.genFiles
      = [{ filename := "a.proto.validator.pb.go", buf := "package x", skip := false },
         { filename := "b.proto.validator.pb.go", buf := "package x", skip := false }] ∧
    (main demoLib failingPipeline ["protoc-gen-validator"] (.ok (demoRequest "")) demoFlags).response
      = some { error := some (.other "invalid constraint"), file := [], supportedFeatures := none } ∧
    (({ error := some (.other "invalid constraint"), file := [], supportedFeatures := none } :
        Response).file = [] ∧
      ({ error := some (.other "invalid constraint"), file := [], supportedFeatures := none } :
        Response).supportedFeatures = none) :=
  ⟨by decide, by decide,
    response_error_excludes_files demoLib failingPipeline ["protoc-gen-validator"]
      (.ok (demoRequest "")) demoFlags
      { error := some (.other "invalid constraint"), file := [], supportedFeatures := none }
      (by decide) (by decide)⟩

/-- C3, as the code has it: a token whose key is neither handled by protogen
nor the name of a defined flag is not ignored.  `flag.CommandLine.Set` answers it
with `no such flag`, and the run of `main` aborts wherever the token stands in the
parameter string: the pipeline is not invoked, no response is written, and the
process ends with an error. -/
theorem unknown_parameter_aborts {σ G : Type} (lib : Lib) (pl : Pipeline σ G)
    (args : List String) (req : Request) (flags : flag.FlagSet σ) (token : String)
    (hmem : token ∈ splitComma req.parameter)
    (hkey : handledByProtogen (keyValue token).1 = false)
    (hundef : (keyValue token).1 ∉ flags.formal) :
    flag.FlagSet.Set (keyValue token).1 (keyValue token).2 flags
        = .error (.noSuchFlag (keyValue token).1) ∧
      ∃ e, main lib pl args (.ok req) flags =
        { err := some e, response := none, calls := [] } := by
  refine ⟨Set_undefined _ _ flags hundef, ?_⟩
  obtain ⟨e, he⟩ := parseParams_unknown token (splitComma req.parameter)
    (Params.init, flags) hmem hkey hundef
  have hnew : Options.New lib (mainOptions σ) req flags = .error e := by
    simp [Options.New, he]
  exact run_of_New_error lib _ _ args req flags e hnew

/-- Witness for C3: the token `foo=bar` after the accepted token `lang=go`. -/
theorem unknown_parameter_aborts_witness :
    flag.FlagSet.Set "foo" "bar" demoFlags = .error (.noSuchFlag "foo") ∧
      ∃ e, main demoLib demoPipeline ["protoc-gen-validator"]
          (.ok (demoRequest "lang=go,foo=bar")) demoFlags =
        { err := some e, response := none, calls := [] } :=
  unknown_parameter_aborts demoLib demoPipeline ["protoc-gen-validator"]
    (demoRequest "lang=go,foo=bar") demoFlags "foo=bar" (by decide) (by decide) (by decide)

/-- C3 as stated fails: with the parameter string `foo=bar`, whose only key is
no parameter of protogen and no defined flag, `main` ends with the error
`no such flag -foo`, writes no response and does not invoke the pipeline; with the
token absent (the empty parameter string) the same request invokes the pipeline
once and is answered with two files. -/
theorem unknown_parameter_not_ignored :
    main demoLib demoPipeline ["protoc-gen-validator"] (.ok (demoRequest "foo=bar")) demoFlags
      = { err := some (.noSuchFlag "foo"), response := none, calls := [] } ∧
    main demoLib demoPipeline ["protoc-gen-validator"] (.ok (demoRequest "")) demoFlags
      = { err := none,
          response := some
            { error := none,
              file := [{ name := "a.proto.validator.pb.go", content := "package x" },
                       { name := "b.proto.validator.pb.go", content := "package x" }],
              supportedFeatures := none },
          calls := [demoPlugin ""] } := by
  constructor <;> decide

/-- C4, as the code has it: `main` invokes the pipeline once per request, not
once per requested file.  In every run that gets past `Options.New` (at most
the program name in `os.Args`, parameters accepted, descriptors resolved) the
plugin that `Options.New` built carries the whole request, with all its files to
generate, and the response written for the host is rendered from the plugin as
one application of `plugin.New(p).Generate()` to that plugin leaves it, with the
error of `Generate`, if it returned one, recorded on it: no second application,
and not none. -/
theorem pipeline_invoked_once_per_request {σ G : Type} (lib : Lib) (pl : Pipeline σ G)
    (args : List String) (req : Request) (flags flags1 : flag.FlagSet σ) (gen : Plugin)
    (hargs : args.length ≤ 1)
    (hnew : Options.New lib (mainOptions σ) req flags = .ok (gen, flags1))
    (hwrite : ∀ resp, lib.write resp = none) :
    gen.request = req ∧
    ((pl.Generate (pl.New gen) flags1 gen).2 = none →
      (main lib pl args (.ok req) flags).response
        = some ((pl.Generate (pl.New gen) flags1 gen).1.Response lib)) ∧
    (∀ e, (pl.Generate (pl.New gen) flags1 gen).2 = some e →
      (main lib pl args (.ok req) flags).response
        = some (((pl.Generate (pl.New gen) flags1 gen).1.Error e).Response lib)) := by
  refine ⟨?_, ?_, ?_⟩
  · unfold Options.New at hnew
    split at hnew
    · simp at hnew
    · split at hnew
      · simp at hnew
      · simp only [Except.ok.injEq, Prod.mk.injEq] at hnew
        rw [← hnew.1]
  · intro hnone
    unfold main Options.Run
    rw [run_of_args lib _ _ args req flags hargs, hnew]
    simp only [callback, hnone, hwrite]
  · intro e he
    unfold main Options.Run
    rw [run_of_args lib _ _ args req flags hargs, hnew]
    simp only [callback, he, hwrite]

/-- Witness for C4: the pipeline that marks its invocations, on a request that
asks for two files: the response is the one after one application of
`Generate`, and it shows one mark. -/
theorem pipeline_invoked_once_per_request_witness :
    (main demoLib markerPipeline ["protoc-gen-validator"] (.ok (demoRequest "lang=go"))
        demoFlags).response
      = some ((markerPipeline.Generate (markerPipeline.New (demoPlugin "lang=go"))
          { demoFlags with values := "go", actual := ["lang"] }
          (demoPlugin "lang=go")).1.Response demoLib) ∧
    invocationMarks ((markerPipeline.Generate (markerPipeline.New (demoPlugin "lang=go"))
          { demoFlags with values := "go", actual := ["lang"] }
          (demoPlugin "lang=go")).1.Response demoLib) = 1 :=
  ⟨(pipeline_invoked_once_per_request demoLib markerPipeline ["protoc-gen-validator"]
      (demoRequest "lang=go") demoFlags { demoFlags with values := "go", actual := ["lang"] }
      (demoPlugin "lang=go") (by decide) (by rfl) (fun _ => rfl)).2.1 (by rfl),
    by decide⟩

/-- C4 as stated fails: the request `demoRequest` asks for two files and its
parameters are accepted, and the response that `main` writes with the pipeline
that marks its invocations shows one invocation of `Generate`, not two. -/
theorem pipeline_not_invoked_per_file :
    (demoRequest "").fileToGenerate.length = 2 ∧
    (main demoLib markerPipeline ["protoc-gen-validator"] (.ok (demoRequest "")) demoFlags)
      = { err := none,
          response := some
            { error := none, file := [{ name := "invocation", content := "" }],
              supportedFeatures := none },
          calls := [demoPlugin ""] } ∧
    (main demoLib markerPipeline ["protoc-gen-validator"] (.ok (demoRequest ""))
        demoFlags).response.map invocationMarks = some 1 ∧
    (main demoLib markerPipeline ["protoc-gen-validator"] (.ok (demoRequest ""))
        demoFlags).response.map invocationMarks
      ≠ some (demoRequest "").fileToGenerate.length := by
  refine ⟨by decide, by decide, by decide, by decide⟩

/-- C9: a parameter failure is atomic.  When the parameter loop reaches a token
that it hands to `flag.CommandLine.Set` (the tokens before it were accepted and
its key is not one that protogen handles itself) and `Set` returns an error `e`
for it, `main` ends with `e` as the error of the process, writes no response, so
no generated artifact, and never invokes `plugin.New(p).Generate()`. -/
theorem rejected_parameter_is_atomic {σ G : Type} (lib : Lib) (pl : Pipeline σ G)
    (args : List String) (req : Request) (flags flags1 : flag.FlagSet σ)
    (pre post : List String) (token : String) (ps : Params) (e : GoError)
    (hargs : args.length ≤ 1)
    (hsplit : splitComma req.parameter = pre ++ token :: post)
    (hpre : parseParams (mainOptions σ) pre (Params.init, flags) = .ok (ps, flags1))
    (hkey : handledByProtogen (keyValue token).1 = false)
    (hrej : flag.FlagSet.Set (keyValue token).1 (keyValue token).2 flags1 = .error e) :
    main lib pl args (.ok req) flags = { err := some e, response := none, calls := [] } := by
  have hloop : parseParams (mainOptions σ) (splitComma req.parameter) (Params.init, flags)
      = .error e := by
    rw [hsplit]
    exact parseParams_stops _ pre post token _ (ps, flags1) e hpre
      (parseParam_handler_error flag.FlagSet.Set token (ps, flags1) e hkey hrej)
  unfold main Options.Run
  rw [run_of_args lib _ _ args req flags hargs]
  simp [Options.New, hloop]

/-- Witness for C9: `verbose=1` is rejected after two accepted tokens and before
a third. -/
theorem rejected_parameter_is_atomic_witness :
    main demoLib demoPipeline ["protoc-gen-validator"]
        (.ok (demoRequest "paths=source_relative,lang=go,verbose=1,lang=c")) demoFlags
      = { err := some (.noSuchFlag "verbose"), response := none, calls := [] } :=
  rejected_parameter_is_atomic demoLib demoPipeline ["protoc-gen-validator"]
    (demoRequest "paths=source_relative,lang=go,verbose=1,lang=c") demoFlags
    { demoFlags with values := "go", actual := ["lang"] }
    ["paths=source_relative", "lang=go"] ["lang=c"] "verbose=1"
    { Params.init with pathType := .pathTypeSourceRelative } (.noSuchFlag "verbose")
    (by decide) (by decide) (by rfl) (by decide) (by rfl)

namespace plugin

/-! ## The pipeline: lemmas -/

theorem emitFrom_keys (key : Nat) (ms : List MessageType) :
    (emitFrom key ms).map Validator.message = List.range' key ms.length := by
  induction ms generalizing key with
  | nil => rfl
  | cons m ms ih => simp [emitFrom, emitValidator, ih, List.range']

theorem emit_keys (s : Schema) :
    (emit s).map Validator.message = List.range s.length := by
  rw [emit, emitFrom_keys, List.range_eq_range']

theorem emitFrom_getElem? (key : Nat) (ms : List MessageType) (i : Nat) :
    (emitFrom key ms)[i]? = ms[i]?.map (emitValidator (key + i)) := by
  induction ms generalizing key i with
  | nil => simp [emitFrom]
  | cons m ms ih =>
    cases i with
    | zero => simp [emitFrom]
    | succ i =>
      simp only [emitFrom, List.getElem?_cons_succ, ih]
      rw [show key + 1 + i = key + (i + 1) by omega]

theorem depth_le_depthList (v : Value) (vs : List Value) (h : v ∈ vs) :
    v.depth ≤ depthList vs := by
  induction vs with
  | nil => simp at h
  | cons w ws ih =>
    simp only [depthList]
    rcases List.mem_cons.mp h with heq | hws
    · subst heq
      exact Nat.le_max_left _ _
    · exact Nat.le_trans (ih hws) (Nat.le_max_right _ _)

/-- A rule returns when every nested call on a message of the field returns. -/
theorem checkRule_returns (nested : Nat → List Value → Option (List Violation))
    (r : ValidationRule) (v : Value)
    (h : ∀ ref fields, v = .msg fields → ∃ out, nested ref fields = some out) :
    ∃ out, checkRule nested r v = some out := by
  cases r with
  | range lo hi ex => cases v <;> exact ⟨_, rfl⟩
  | required => exact ⟨_, rfl⟩
  | nested ref =>
    cases v with
    | msg fields => exact h ref fields rfl
    | num _ => exact ⟨_, rfl⟩
    | text _ => exact ⟨_, rfl⟩
    | unset => exact ⟨_, rfl⟩

theorem checkRules_returns (nested : Nat → List Value → Option (List Violation))
    (rs : List ValidationRule) (v : Value)
    (h : ∀ ref fields, v = .msg fields → ∃ out, nested ref fields = some out) :
    ∃ out, checkRules nested rs v = some out := by
  induction rs with
  | nil => exact ⟨_, rfl⟩
  | cons r rs ih =>
    obtain ⟨out, hout⟩ := checkRule_returns nested r v h
    cases out with
    | nil => simpa [checkRules, hout] using ih
    | cons x xs => exact ⟨x :: xs, by simp [checkRules, hout]⟩

theorem checkFields_returns (nested : Nat → List Value → Option (List Violation))
    (cs : List (String × List ValidationRule)) (vs : List Value)
    (h : ∀ v ∈ vs, ∀ ref fields, v = .msg fields → ∃ out, nested ref fields = some out) :
    ∃ out, checkFields nested cs vs = some out := by
  induction cs generalizing vs with
  | nil => exact ⟨[], by simp [checkFields]⟩
  | cons c cs ih =>
    cases vs with
    | nil => exact ⟨[], by simp [checkFields]⟩
    | cons v vs =>
      obtain ⟨a, ha⟩ := checkRules_returns nested c.2 v (h v (List.mem_cons_self _ _))
      obtain ⟨b, hb⟩ := ih vs (fun w hw => h w (List.mem_cons_of_mem _ hw))
      exact ⟨a.map (fun x => { x with path := c.1 :: x.path }) ++ b,
        by simp [checkFields, ha, hb]⟩

/-- Validation returns within a call depth of one more than the depth of the
instance, whatever the validators and however they refer to one another. -/
theorem validate_returns (validators : List Validator) (fuel key : Nat) (fields : List Value)
    (h : depthList fields < fuel) :
    ∃ out, validate validators fuel key fields = some out := by
  induction fuel generalizing key fields with
  | zero => omega
  | succ n ih =>
    simp only [validate]
    cases hv : validators[key]? with
    | none => exact ⟨_, rfl⟩
    | some V =>
      simp only
      apply checkFields_returns
      intro v hv ref fs heq
      apply ih
      have h1 := depth_le_depthList v fields hv
      subst heq
      simp only [Value.depth] at h1
      omega

theorem checkRule_mono (nested nested1 : Nat → List Value → Option (List Violation))
    (hm : ∀ ref fields out, nested ref fields = some out → nested1 ref fields = some out)
    (r : ValidationRule) (v : Value) (out : List Violation)
    (h : checkRule nested r v = some out) : checkRule nested1 r v = some out := by
  cases r with
  | range lo hi ex => cases v <;> exact h
  | required => exact h
  | nested ref =>
    cases v with
    | msg fields => exact hm ref fields out h
    | num _ => exact h
    | text _ => exact h
    | unset => exact h

theorem checkRules_mono (nested nested1 : Nat → List Value → Option (List Violation))
    (hm : ∀ ref fields out, nested ref fields = some out → nested1 ref fields = some out)
    (rs : List ValidationRule) (v : Value) (out : List Violation)
    (h : checkRules nested rs v = some out) : checkRules nested1 rs v = some out := by
  induction rs with
  | nil => exact h
  | cons r rs ih =>
    simp only [checkRules] at h ⊢
    cases hr : checkRule nested r v with
    | none => simp [hr] at h
    | some a =>
      rw [checkRule_mono nested nested1 hm r v a hr]
      cases a with
      | nil => simp only [hr] at h; exact ih h
      | cons x xs => simpa [hr] using h

theorem checkFields_mono (nested nested1 : Nat → List Value → Option (List Violation))
    (hm : ∀ ref fields out, nested ref fields = some out → nested1 ref fields = some out)
    (cs : List (String × List ValidationRule)) (vs : List Value) (out : List Violation)
    (h : checkFields nested cs vs = some out) : checkFields nested1 cs vs = some out := by
  induction cs generalizing vs out with
  | nil => simpa [checkFields] using h
  | cons c cs ih =>
    cases vs with
    | nil => simpa [checkFields] using h
    | cons v vs =>
      simp only [checkFields] at h ⊢
      cases ha : checkRules nested c.2 v with
      | none => simp [ha] at h
      | some a =>
        cases hb : checkFields nested cs vs with
        | none => simp [ha, hb] at h
        | some b =>
          rw [checkRules_mono nested nested1 hm c.2 v a ha, ih vs b hb]
          simpa [ha, hb] using h

theorem validate_succ (validators : List Validator) (fuel key : Nat) (fields : List Value)
    (out : List Violation) (h : validate validators fuel key fields = some out) :
    validate validators (fuel + 1) key fields = some out := by
  induction fuel generalizing key fields out with
  | zero => simp [validate] at h
  | succ n ih =>
    rw [validate] at h ⊢
    cases hv : validators[key]? with
    | none => simpa [hv] using h
    | some V =>
      simp only [hv] at h ⊢
      exact checkFields_mono _ _ (fun ref fs o ho => ih ref fs o ho) V.checks fields out h

theorem validate_mono (validators : List Validator) (fuel fuel1 key : Nat) (fields : List Value)
    (out : List Violation) (hle : fuel ≤ fuel1)
    (h : validate validators fuel key fields = some out) :
    validate validators fuel1 key fields = some out := by
  induction hle with
  | refl => exact h
  | step _ ih => exact validate_succ _ _ _ _ _ ih

/-- Every violation that the rules of a field find is in the result of the
validator, under the name of the field. -/
theorem checkFields_complete (nested : Nat → List Value → Option (List Violation))
    (cs : List (String × List ValidationRule)) (vs : List Value) (out : List Violation)
    (h : checkFields nested cs vs = some out)
    (c : String × List ValidationRule) (v : Value) (hmem : (c, v) ∈ cs.zip vs)
    (found : List Violation) (hfound : checkRules nested c.2 v = some found)
    (w : Violation) (hw : w ∈ found) :
    { w with path := c.1 :: w.path } ∈ out := by
  induction cs generalizing vs out with
  | nil => simp at hmem
  | cons c0 cs ih =>
    cases vs with
    | nil => simp at hmem
    | cons v0 vs =>
      simp only [checkFields] at h
      cases ha : checkRules nested c0.2 v0 with
      | none => simp [ha] at h
      | some a =>
        cases hb : checkFields nested cs vs with
        | none => simp [ha, hb] at h
        | some b =>
          simp only [ha, hb, Option.some.injEq] at h
          subst h
          simp only [List.zip_cons_cons, List.mem_cons, Prod.mk.injEq] at hmem
          rcases hmem with ⟨hc, hv⟩ | hrest
          · subst hc hv
            rw [ha] at hfound
            simp only [Option.some.injEq] at hfound
            subst hfound
            exact List.mem_append_left _ (List.mem_map.mpr ⟨w, hw, rfl⟩)
          · exact List.mem_append_right _ (ih vs b hb hrest)

/-! ## The pipeline: claims -/

/-- C6: the numeric range rule.  For all bounds `lo` and `hi` (so for
`lo ≤ hi`) and every value `v`, a range constraint on a numeric field compiles
to one range rule, generation succeeds, and the validator generated for the
message accepts the instance with value `v` (returns no violation) exactly when
`lo ≤ v ≤ hi` for the inclusive range and exactly when `lo < v < hi` for the
exclusive one; otherwise it returns the violation of that field.  For `[1,10]`
the values 1 and 10 pass and 0 and 11 fail; for the exclusive `(1,10)` the
values 1 and 10 fail. -/
theorem numeric_range_rule (lo hi v : Int) :
    (∀ exclusive, compileConstraint .numeric (.numericRange lo hi exclusive)
        = some (.range lo hi exclusive)) ∧
    (∀ exclusive, Generate (rangeSchema lo hi exclusive) = .ok (emit (rangeSchema lo hi exclusive))) ∧
    (validate (emit (rangeSchema lo hi false)) 1 0 [.num v] = some [] ↔ lo ≤ v ∧ v ≤ hi) ∧
    (validate (emit (rangeSchema lo hi true)) 1 0 [.num v] = some [] ↔ lo < v ∧ v < hi) ∧
    (validate (emit (rangeSchema lo hi false)) 1 0 [.num v]
        = some [{ path := ["f"], reason := "out of range" }] ↔ ¬ (lo ≤ v ∧ v ≤ hi)) ∧
    (validate (emit (rangeSchema lo hi true)) 1 0 [.num v]
        = some [{ path := ["f"], reason := "out of range" }] ↔ ¬ (lo < v ∧ v < hi)) ∧
    validate (emit (rangeSchema 1 10 false)) 1 0 [.num 1] = some [] ∧
    validate (emit (rangeSchema 1 10 false)) 1 0 [.num 10] = some [] ∧
    validate (emit (rangeSchema 1 10 false)) 1 0 [.num 0]
      = some [{ path := ["f"], reason := "out of range" }] ∧
    validate (emit (rangeSchema 1 10 false)) 1 0 [.num 11]
      = some [{ path := ["f"], reason := "out of range" }] ∧
    validate (emit (rangeSchema 1 10 true)) 1 0 [.num 1]
      = some [{ path := ["f"], reason := "out of range" }] ∧
    validate (emit (rangeSchema 1 10 true)) 1 0 [.num 10]
      = some [{ path := ["f"], reason := "out of range" }] := by
  have key : ∀ exclusive, validate (emit (rangeSchema lo hi exclusive)) 1 0 [.num v]
      = some (if inRange lo hi exclusive v then []
          else [{ path := ["f"], reason := "out of range" }]) := by
    intro exclusive
    simp only [validate, emit, rangeSchema, emitFrom, emitValidator, compileField,
      List.map, List.filterMap, compileConstraint, List.filter, ValidationRule.isNested,
      List.getElem?_cons_zero, checkFields, checkRules, checkRule, List.append_nil,
      Bool.not_false, Bool.false_eq_true]
    cases inRange lo hi exclusive v <;> simp [checkRules]
  refine ⟨fun _ => rfl, ?_, ?_, ?_, ?_, ?_, by decide, by decide, by decide, by decide,
    by decide, by decide⟩
  · intro exclusive
    simp [Generate, unresolved, diagnose, rangeSchema, compatible]
  · rw [key]; simp [inRange]
  · rw [key]; simp [inRange]
  · rw [key]; by_cases h : lo ≤ v ∧ v ≤ hi <;> simp [inRange, h]
  · rw [key]; by_cases h : lo < v ∧ v < hi <;> simp [inRange, h]

/-- C7: aggregation completeness.  For every list of generated validators,
every message type `key` with validator `V` among them and every instance
`fields`, the validator returns a result (within a call depth of one more than
the depth of the instance), and the result names every field that violates its
rules: whenever the rule list of a field finds violations on the value of that
field, each of them is in the result under the name of the field, whether or not
an earlier field was violated too. -/
theorem validation_names_every_violated_field (validators : List Validator) (key : Nat)
    (V : Validator) (fields : List Value) (hV : validators[key]? = some V) :
    ∃ result, validate validators (depthList fields + 1) key fields = some result ∧
      ∀ (c : String × List ValidationRule) (v : Value), (c, v) ∈ V.checks.zip fields →
        ∀ found, checkRules (validate validators (depthList fields)) c.2 v = some found →
          ∀ w ∈ found, { w with path := c.1 :: w.path } ∈ result := by
  obtain ⟨result, hres⟩ := validate_returns validators (depthList fields + 1) key fields
    (Nat.lt_succ_self _)
  refine ⟨result, hres, ?_⟩
  intro c v hmem found hfound w hw
  rw [validate, hV] at hres
  exact checkFields_complete _ V.checks fields result hres c v hmem found hfound w hw

/-- Witness for C7: an instance with two invalid fields of its own and an
invalid field in a nested message; the result names all three. -/
theorem validation_names_every_violated_field_witness :
    ∃ result, validate (emit cyclicSchema)
        (depthList [.num 0, .text "", .msg [.num 11, .text "x", .unset]] + 1) 0
        [.num 0, .text "", .msg [.num 11, .text "x", .unset]] = some result ∧
      ({ path := ["value"], reason := "out of range" } : Violation) ∈ result ∧
      ({ path := ["label"], reason := "required" } : Violation) ∈ result ∧
      ({ path := ["next", "value"], reason := "out of range" } : Violation) ∈ result := by
  obtain ⟨result, hres, hall⟩ := validation_names_every_violated_field (emit cyclicSchema) 0
    (emitValidator 0 nodeMessage)
    [.num 0, .text "", .msg [.num 11, .text "x", .unset]] (by decide)
  refine ⟨result, hres, ?_, ?_, ?_⟩
  · exact hall ("value", [.range 1 10 false]) (.num 0) (by simp [emitValidator, nodeMessage, compileField, compileConstraint, ValidationRule.isNested])
      [{ path := [], reason := "out of range" }] (by decide) _ (List.mem_singleton.mpr rfl)
  · exact hall ("label", [.required]) (.text "") (by simp [emitValidator, nodeMessage, compileField, compileConstraint, ValidationRule.isNested])
      [{ path := [], reason := "required" }] (by decide) _ (List.mem_singleton.mpr rfl)
  · exact hall ("next", [.nested 0]) (.msg [.num 11, .text "x", .unset]) (by simp [emitValidator, nodeMessage, compileField, compileConstraint, ValidationRule.isNested])
      [{ path := ["value"], reason := "out of range" }] (by decide) _ (List.mem_singleton.mpr rfl)

/-- C8: cycle termination.  For every schema, whatever cycles its message
reference graph has: generation is one pass over the arena that follows no
reference, it succeeds when every reference resolves and no constraint is
incompatible, and it emits exactly one validator per message type, the one
compiled from that type, however many fields refer to it.  Validating an
instance with the emitted validators returns within a call depth of one more
than the depth of the instance: any `fuel` above that depth yields a result,
and the same one. -/
theorem cycle_termination (s : Schema) (key fuel : Nat) (fields : List Value)
    (hfuel : depthList fields < fuel) :
    (unresolved s = none → diagnose s = [] → Generate s = .ok (emit s)) ∧
    (emit s).map Validator.message = List.range s.length ∧
    (∀ k, k < s.length → ((emit s).map Validator.message).count k = 1) ∧
    (∀ k m, s[k]? = some m → (emit s)[k]? = some (emitValidator k m)) ∧
    (∃ result, validate (emit s) fuel key fields = some result) ∧
    validate (emit s) fuel key fields = validate (emit s) (depthList fields + 1) key fields := by
  refine ⟨?_, emit_keys s, ?_, ?_, validate_returns _ _ _ _ hfuel, ?_⟩
  · intro h1 h2
    simp [Generate, h1, h2]
  · intro k hk
    rw [emit_keys]
    exact List.count_eq_one_of_mem (List.nodup_range _) (List.mem_range.mpr hk)
  · intro k m hm
    rw [emit, emitFrom_getElem?, hm]
    simp
  · obtain ⟨out, hout⟩ := validate_returns (emit s) (depthList fields + 1) key fields
      (Nat.lt_succ_self _)
    rw [hout]
    exact validate_mono _ _ _ _ _ _ hfuel hout

/-- Witness for C8: the self-referential schema and a list of three nodes. -/
theorem cycle_termination_witness :
    Generate cyclicSchema = .ok (emit cyclicSchema) ∧
    ((emit cyclicSchema).map Validator.message).count 0 = 1 ∧
    (emit cyclicSchema).length = 1 ∧
    (∃ result, validate (emit cyclicSchema) 5 0
        [.num 3, .text "a", .msg [.num 4, .text "b", .msg [.num 5, .text "c", .unset]]]
      = some result) ∧
    validate (emit cyclicSchema) 5 0
        [.num 3, .text "a", .msg [.num 4, .text "b", .msg [.num 5, .text "c", .unset]]]
      = validate (emit cyclicSchema) 3 0
        [.num 3, .text "a", .msg [.num 4, .text "b", .msg [.num 5, .text "c", .unset]]] :=
  have h := cycle_termination cyclicSchema 0 5
    [.num 3, .text "a", .msg [.num 4, .text "b", .msg [.num 5, .text "c", .unset]]] (by decide)
  ⟨h.1 (by decide) (by decide), h.2.2.1 0 (by decide), by decide, h.2.2.2.2.1, h.2.2.2.2.2⟩

end plugin

end ProtocGenValidator
